import Mathlib

/-!
Shallow embedding of the weather-data consumer service
(`src/services/consumer/main.py`): the validated data model
(`WeatherData`), the in-memory deduplicating buffer, the dead-letter
routing (`send_to_dlq`), batch persistence (`persist_batch`), the
message-processing step of `consume`, the `/flush` and `/stats`
endpoints, and the periodic flush task.

Numeric fields are embedded as rationals: every comparison the code
performs on them is an order comparison against small integer constants,
on which rational and IEEE orders agree.  The database transaction is
embedded as an all-or-nothing effect selected by a boolean `dbOk`
(psycopg2: a transaction that is never committed leaves the store
unchanged).  Wall-clock times are `Int` values.  The Kafka transport for
the dead-letter sink is modelled as always delivering; delivery failures
in the code are logged and swallowed and change no state either.
-/

namespace WeatherConsumer

/-- A parsed JSON input payload: each field of the object may be absent.
Mirrors the `value.get(...)` accesses in `consume`. -/
structure RawMessage where
  station_id : Option String
  temperature : Option ℚ
  humidity : Option ℚ
  wind_speed : Option ℚ
  timestamp : Option String
  trace_id : Option String
deriving DecidableEq

/-- The pydantic model `WeatherData` of the consumer. -/
structure WeatherData where
  station_id : String
  temperature : ℚ
  humidity : ℚ
  wind_speed : ℚ
  timestamp : String
  trace_id : Option String
deriving DecidableEq

/-- Field validator `validate_temperature`: rejects unless `-100 <= v <= 60`. -/
def validate_temperature (v : ℚ) : Bool :=
  decide (-100 ≤ v) && decide (v ≤ 60)

/-- Field validator `validate_humidity`: rejects unless `0 <= v <= 100`. -/
def validate_humidity (v : ℚ) : Bool :=
  decide (0 ≤ v) && decide (v ≤ 100)

/-- Field validator `validate_wind_speed`: rejects negative wind speed. -/
def validate_wind_speed (v : ℚ) : Bool :=
  decide (0 ≤ v)

/-- Construction of `WeatherData` from the fields extracted in `consume`:
fails (pydantic raises) when a required field is absent or a field
validator rejects.  The trace id is defaulted to `"unknown"` before the
model is built (`value.get('trace_id', 'unknown')`). -/
def validateWeatherData (m : RawMessage) : Option WeatherData :=
  match m.station_id, m.temperature, m.humidity, m.wind_speed, m.timestamp with
  | some sid, some t, some h, some w, some ts =>
    if validate_temperature t && validate_humidity h && validate_wind_speed w then
      some { station_id := sid, temperature := t, humidity := h, wind_speed := w,
             timestamp := ts, trace_id := some (m.trace_id.getD "unknown") }
    else none
  | _, _, _, _, _ => none

/-- The dict stored in the buffer (lines 338-344): exactly the five data
fields, no trace id. -/
structure Record where
  station_id : String
  temperature : ℚ
  humidity : ℚ
  wind_speed : ℚ
  timestamp : String
deriving DecidableEq

/-- The buffered dict built from validated data. -/
def recordOf (d : WeatherData) : Record :=
  { station_id := d.station_id, temperature := d.temperature, humidity := d.humidity,
    wind_speed := d.wind_speed, timestamp := d.timestamp }

/-- The unique key: the station id, a colon, and the timestamp. -/
def natKey (d : WeatherData) : String :=
  d.station_id ++ ":" ++ d.timestamp

/-- The buffer: a Python dict from unique key to record, in insertion
order (overwriting keeps the original position). -/
abbrev Buffer := List (String × Record)

/-- Key membership test, `unique_key in buffer`. -/
def bufContains (buf : Buffer) (k : String) : Bool :=
  buf.any (fun p => p.1 = k)

/-- Dict assignment of a record under its unique key, overwriting in place
when the key exists (the entry keeps its position), appending otherwise. -/
def bufUpsert : Buffer → String → Record → Buffer
  | [], k, r => [(k, r)]
  | p :: t, k, r => if p.1 = k then (k, r) :: t else p :: bufUpsert t k r

/-- Dict lookup. -/
def bufGet (buf : Buffer) (k : String) : Option Record :=
  (buf.find? (fun p => p.1 = k)).map Prod.snd

/-- Number of entries stored under a key (a dict holds at most one). -/
def countKey (buf : Buffer) (k : String) : Nat :=
  (buf.filter (fun p => p.1 = k)).length

/-- The durable store key: the `(station_id, timestamp)` uniqueness
constraint of the `weather` table. -/
def dbKey (r : Record) : String × String :=
  (r.station_id, r.timestamp)

/-- The durable store: rows keyed by `(station_id, timestamp)`. -/
abbrev Db := List ((String × String) × Record)

/-- One `INSERT ... ON CONFLICT (station_id, timestamp) DO UPDATE SET
temperature, humidity, wind_speed`: insert when the key is absent,
otherwise update only the mutable fields in place. -/
def dbUpsert (db : Db) (r : Record) : Db :=
  if db.any (fun p => p.1 = dbKey r) then
    db.map (fun p =>
      if p.1 = dbKey r then
        (p.1, { p.2 with temperature := r.temperature, humidity := r.humidity,
                         wind_speed := r.wind_speed })
      else p)
  else
    db ++ [(dbKey r, r)]

/-- A payload handed to `send_to_dlq`: raw message bytes, or a dict. -/
inductive DlqPayload where
  | bytes (raw : String)
  | dict (fields : List (String × String))
deriving DecidableEq

/-- Dict assignment `msg['trace_id'] = trace_id`. -/
def setField (fields : List (String × String)) (k v : String) :
    List (String × String) :=
  if fields.any (fun p => p.1 = k) then
    fields.map (fun p => if p.1 = k then (k, v) else p)
  else
    fields ++ [(k, v)]

/-- The function `send_to_dlq`: the message produced on the DLQ topic.  Raw bytes are
forwarded unchanged; a dict gets the trace id injected (when one was
given) and is serialised. -/
def send_to_dlq (msg : DlqPayload) (trace_id : Option String) : DlqPayload :=
  match msg with
  | .bytes raw => .bytes raw
  | .dict fields =>
    match trace_id with
    | some t => .dict (setField fields "trace_id" t)
    | none => .dict fields

/-- The `stats` dict. -/
structure Stats where
  messages_processed : Nat
  batches_persisted : Nat
  in_memory_duplicates : Nat
deriving DecidableEq

/-- The mutable service state: buffer, stats, durable store, the stream
of messages delivered to the DLQ topic, the last flush time, and the
loop-local `trace_id` variable of `consume` (`none` while it has never
been assigned; using it then raises `NameError`). -/
structure ConsumerState where
  buffer : Buffer
  stats : Stats
  db : Db
  dlq : List DlqPayload
  last_flush_time : Int
  lastTrace : Option String
deriving DecidableEq

/-- State at service start. -/
def initState : ConsumerState :=
  { buffer := [], stats := ⟨0, 0, 0⟩, db := [], dlq := [],
    last_flush_time := 0, lastTrace := none }

/-- The flush routine `persist_batch`: returns 0 untouched on an empty buffer; otherwise
drains the buffer (copy values, clear) and runs the transactional
insert loop.  `dbOk` selects whether the transaction commits: on
success every drained record is upserted, `records_processed` (the
number of drained records) is returned, `batches_persisted` is
incremented and the last flush time updated; on any failure the
function returns 0 with the store unchanged and the buffer left
drained. -/
def persist_batch (dbOk : Bool) (s : ConsumerState) (now : Int) :
    Nat × ConsumerState :=
  if s.buffer.isEmpty then
    (0, s)
  else
    let data_to_persist := s.buffer.map Prod.snd
    let drained : ConsumerState := { s with buffer := [] }
    if dbOk then
      (data_to_persist.length,
       { drained with
           db := data_to_persist.foldl dbUpsert drained.db,
           stats := { drained.stats with
                        batches_persisted := drained.stats.batches_persisted + 1 },
           last_flush_time := now })
    else
      (0, drained)

/-- A message pulled from the source topic: either its JSON body fails
to parse (or is not an object), or it parses to a `RawMessage`.  `raw`
is the payload bytes `msg.value` in both cases. -/
inductive InMsg where
  | malformed (raw : String)
  | json (value : RawMessage) (raw : String)
deriving DecidableEq

/-- The buffer/stats update of the validated path of `consume`: detect a
duplicate key (incrementing `in_memory_duplicates`), store the
five-field dict under the unique key, increment `messages_processed`. -/
def ingestValid (d : WeatherData) (s : ConsumerState) : ConsumerState :=
  let key := natKey d
  let stats1 :=
    if bufContains s.buffer key then
      { s.stats with in_memory_duplicates := s.stats.in_memory_duplicates + 1 }
    else s.stats
  { s with
      buffer := bufUpsert s.buffer key (recordOf d),
      stats := { stats1 with messages_processed := stats1.messages_processed + 1 } }

/-- After a successful ingest: flush when the buffer reached
`BATCH_SIZE` (the inner `if buffer:` guard repeats the non-emptiness
check); the consume path then re-stamps the last flush time. -/
def postIngest (batchSize : Nat) (dbOk : Bool) (now : Int) (d : WeatherData)
    (s0 : ConsumerState) : ConsumerState :=
  let s1 := ingestValid d s0
  if batchSize ≤ s1.buffer.length then
    if s1.buffer.isEmpty then s1
    else { (persist_batch dbOk s1 now).2 with last_flush_time := now }
  else s1

/-- One iteration of the message loop of `consume`.  A parse failure
reaches the `except` block with `trace_id` still holding the value from
the last successfully parsed message; when no message was ever parsed,
evaluating `trace_id` raises `NameError` inside the inner `try`, so the
DLQ send never happens and the error is swallowed.  A validation
failure sends the raw payload to the DLQ.  A validated message is
ingested and may trigger a size-based flush. -/
def consumeStep (batchSize : Nat) (dbOk : Bool) (now : Int) (msg : InMsg)
    (s : ConsumerState) : ConsumerState :=
  match msg with
  | .malformed raw =>
    match s.lastTrace with
    | none => s
    | some t => { s with dlq := s.dlq ++ [send_to_dlq (.bytes raw) (some t)] }
  | .json value raw =>
    let trace_id := value.trace_id.getD "unknown"
    let s0 := { s with lastTrace := some trace_id }
    match validateWeatherData value with
    | none => { s0 with dlq := s0.dlq ++ [send_to_dlq (.bytes raw) (some trace_id)] }
    | some d => postIngest batchSize dbOk now d s0

/-- Body of the `/flush` endpoint `flush_buffer`: reports `flushed := 0`
on an empty buffer; otherwise runs `persist_batch` but reports the
pre-flush buffer size, ignoring the count `persist_batch` returned. -/
structure FlushResponse where
  message : String
  flushed : Nat
deriving DecidableEq

/-- The `/flush` endpoint. -/
def flush_buffer (dbOk : Bool) (now : Int) (s : ConsumerState) :
    FlushResponse × ConsumerState :=
  let buffer_size := s.buffer.length
  if buffer_size = 0 then
    ({ message := "No data to flush", flushed := 0 }, s)
  else
    let r := persist_batch dbOk s now
    ({ message := "Successfully flushed buffer", flushed := buffer_size }, r.2)

/-- The `/stats` endpoint response. -/
structure StatsResponse where
  messages_processed : Nat
  batches_persisted : Nat
  buffer_size : Nat
  in_memory_duplicates : Nat
deriving DecidableEq

/-- The `/stats` endpoint. -/
def get_stats (s : ConsumerState) : StatsResponse :=
  { messages_processed := s.stats.messages_processed,
    batches_persisted := s.stats.batches_persisted,
    buffer_size := s.buffer.length,
    in_memory_duplicates := s.stats.in_memory_duplicates }

/-- One wake of `periodic_flush_task`: when the elapsed time since the
last flush reaches `BATCH_INTERVAL`, persist if (and only if) the
buffer is non-empty, and re-stamp the last flush time either way.  The
boolean records whether `persist_batch` was invoked. -/
def periodicTick (interval : Nat) (now : Int) (dbOk : Bool)
    (s : ConsumerState) : Bool × ConsumerState :=
  if (interval : Int) ≤ now - s.last_flush_time then
    if 0 < s.buffer.length then
      (true, { (persist_batch dbOk s now).2 with last_flush_time := now })
    else
      (false, { s with last_flush_time := now })
  else
    (false, s)

/-- The shutdown path of `lifespan`: flush only when records remain. -/
def shutdownFlushStep (dbOk : Bool) (now : Int) (s : ConsumerState) :
    ConsumerState :=
  if 0 < s.buffer.length then (persist_batch dbOk s now).2 else s

/-- An externally observable operation on the service state. -/
inductive Op where
  | msg (batchSize : Nat) (dbOk : Bool) (now : Int) (m : InMsg)
  | tick (interval : Nat) (dbOk : Bool) (now : Int)
  | manualFlush (dbOk : Bool) (now : Int)
  | shutdownFlush (dbOk : Bool) (now : Int)
deriving DecidableEq

/-- Apply one operation. -/
def applyOp (s : ConsumerState) : Op → ConsumerState
  | .msg bs dbOk now m => consumeStep bs dbOk now m s
  | .tick interval dbOk now => (periodicTick interval now dbOk s).2
  | .manualFlush dbOk now => (flush_buffer dbOk now s).2
  | .shutdownFlush dbOk now => shutdownFlushStep dbOk now s

/-- Run a sequence of operations from service start. -/
def runOps (ops : List Op) : ConsumerState :=
  ops.foldl applyOp initState

/-- Process a list of source messages in order through `consume`. -/
def processAll (batchSize : Nat) (dbOk : Bool) (now : Int) (msgs : List InMsg)
    (s : ConsumerState) : ConsumerState :=
  msgs.foldl (fun s m => consumeStep batchSize dbOk now m s) s

/-- The range constraints enforced by the three field validators. -/
def validRanges (d : WeatherData) : Prop :=
  (-100 ≤ d.temperature ∧ d.temperature ≤ 60)
  ∧ (0 ≤ d.humidity ∧ d.humidity ≤ 100)
  ∧ 0 ≤ d.wind_speed

instance (d : WeatherData) : Decidable (validRanges d) := by
  unfold validRanges; infer_instance

/-- The JSON object carrying the fields of `d`. -/
def rawMessageOf (d : WeatherData) : RawMessage :=
  { station_id := some d.station_id, temperature := some d.temperature,
    humidity := some d.humidity, wind_speed := some d.wind_speed,
    timestamp := some d.timestamp, trace_id := d.trace_id }

/-- A source message whose body carries the fields of `d`. -/
def msgOfData (d : WeatherData) : InMsg :=
  .json (rawMessageOf d) ""

/-- Whether a DLQ message is a serialised JSON object (as opposed to
forwarded raw bytes). -/
def isDict : DlqPayload → Bool
  | .dict _ => true
  | .bytes _ => false

/-- Modelled from the spec: the dead-letter message shape the spec
states for the DLQ sink, `{error, original_message, trace_id}`.  The
source never builds such an object; this definition exists only to be
compared against what `send_to_dlq` actually produces. -/
def dlqSpecMessage (error original_message trace_id : String) : DlqPayload :=
  .dict [("error", error), ("original_message", original_message),
         ("trace_id", trace_id)]

/-- A well-formed concrete reading. -/
def goodRaw : RawMessage :=
  { station_id := some "s1", temperature := some 20, humidity := some 65,
    wind_speed := some 10, timestamp := some "T0", trace_id := some "t1" }

/-- A concrete reading with `temperature = 999`, out of range. -/
def badRaw : RawMessage :=
  { station_id := some "s1", temperature := some 999, humidity := some 65,
    wind_speed := some 10, timestamp := some "T0", trace_id := some "t1" }

/-- The validated form of `goodRaw`. -/
def goodData : WeatherData :=
  { station_id := "s1", temperature := 20, humidity := 65, wind_speed := 10,
    timestamp := "T0", trace_id := some "t1" }

/-- A second reading for the same natural key as `goodData`. -/
def goodData2 : WeatherData :=
  { station_id := "s1", temperature := 21, humidity := 60, wind_speed := 12,
    timestamp := "T0", trace_id := some "t2" }

/-- A service state holding exactly one buffered record. -/
def oneRecordState : ConsumerState :=
  { buffer := [("s1:T0", recordOf goodData)],
    stats := ⟨1, 0, 0⟩, db := [], dlq := [], last_flush_time := 0,
    lastTrace := some "t1" }

/-! ## Buffer lemmas -/

theorem bufContains_nil (k : String) : bufContains [] k = false := rfl

theorem bufContains_cons (p : String × Record) (t : Buffer) (k : String) :
    bufContains (p :: t) k = (decide (p.1 = k) || bufContains t k) := by
  simp [bufContains]

theorem bufContains_upsert_self (buf : Buffer) (k : String) (r : Record) :
    bufContains (bufUpsert buf k r) k = true := by
  induction buf with
  | nil => simp [bufUpsert, bufContains]
  | cons p t ih =>
    by_cases h : p.1 = k
    · simp [bufUpsert, h, bufContains]
    · simp [bufUpsert, h, bufContains_cons, ih]

theorem bufGet_upsert_self (buf : Buffer) (k : String) (r : Record) :
    bufGet (bufUpsert buf k r) k = some r := by
  induction buf with
  | nil => simp [bufUpsert, bufGet]
  | cons p t ih =>
    by_cases h : p.1 = k
    · simp [bufUpsert, h, bufGet]
    · simpa [bufUpsert, h, bufGet, List.find?] using ih

theorem length_bufUpsert (buf : Buffer) (k : String) (r : Record) :
    (bufUpsert buf k r).length
      = if bufContains buf k then buf.length else buf.length + 1 := by
  induction buf with
  | nil => simp [bufUpsert, bufContains]
  | cons p t ih =>
    by_cases h : p.1 = k
    · simp [bufUpsert, h, bufContains_cons]
    · by_cases hc : bufContains t k = true <;>
        simp [bufUpsert, h, bufContains_cons, ih, hc]

theorem countKey_eq_zero_of_not_contains (buf : Buffer) (k : String)
    (h : bufContains buf k = false) : countKey buf k = 0 := by
  induction buf with
  | nil => rfl
  | cons p t ih =>
    rw [bufContains_cons] at h
    rcases Bool.or_eq_false_iff.mp h with ⟨h1, h2⟩
    have hp : ¬ p.1 = k := by simpa using h1
    simp [countKey, List.filter, hp] at ih ⊢
    exact ih h2

theorem countKey_bufUpsert_self (buf : Buffer) (k : String) (r : Record) :
    countKey (bufUpsert buf k r) k
      = if bufContains buf k then countKey buf k else countKey buf k + 1 := by
  induction buf with
  | nil => simp [bufUpsert, countKey, List.filter, bufContains]
  | cons p t ih =>
    by_cases h : p.1 = k
    · simp [bufUpsert, h, countKey, List.filter, bufContains_cons]
    · have hp : (decide (p.1 = k)) = false := by simpa using h
      simp only [bufUpsert, if_neg h, bufContains_cons, hp, Bool.false_or]
      have hck : ∀ l : Buffer, countKey (p :: l) k = countKey l k := by
        intro l; simp [countKey, List.filter_cons, hp]
      rw [hck, hck, ih]

/-! ## `persist_batch` lemmas -/

theorem persist_batch_empty (dbOk : Bool) (s : ConsumerState) (now : Int)
    (h : s.buffer = []) : persist_batch dbOk s now = (0, s) := by
  simp [persist_batch, h]

theorem persist_batch_stats (dbOk : Bool) (s : ConsumerState) (now : Int) :
    (persist_batch dbOk s now).2.stats.messages_processed
        = s.stats.messages_processed
    ∧ (persist_batch dbOk s now).2.stats.in_memory_duplicates
        = s.stats.in_memory_duplicates
    ∧ s.stats.batches_persisted
        ≤ (persist_batch dbOk s now).2.stats.batches_persisted := by
  unfold persist_batch
  split
  · simp
  · split <;> simp

theorem persist_batch_buffer (dbOk : Bool) (s : ConsumerState) (now : Int) :
    (persist_batch dbOk s now).2.buffer = [] ∨ (persist_batch dbOk s now).2 = s := by
  unfold persist_batch
  split
  · right; rfl
  · split <;> left <;> rfl

/-- C1: a successful flush of a buffer holding `n` records persists
exactly those `n` drained records (upserting each into the store),
returns `n`, and leaves the buffer empty. -/
theorem persist_batch_success_drains (s : ConsumerState) (now : Int) :
    (persist_batch true s now).1 = s.buffer.length
    ∧ (persist_batch true s now).2.buffer = []
    ∧ (persist_batch true s now).2.db
        = (s.buffer.map Prod.snd).foldl dbUpsert s.db := by
  unfold persist_batch
  by_cases h : s.buffer.isEmpty
  · have hb : s.buffer = [] := by simpa using h
    simp [hb]
  · simp [h]

/-- C5: when the store transaction fails, nothing of the batch is
committed (the store is unchanged), the function returns 0, and the
drained records are not restored: the state is exactly the input state
with an empty buffer. -/
theorem persist_batch_failure_no_restore (s : ConsumerState) (now : Int) :
    persist_batch false s now = (0, { s with buffer := [] }) := by
  unfold persist_batch
  by_cases h : s.buffer.isEmpty
  · have hb : s.buffer = [] := by simpa using h
    obtain ⟨buf, st, db, dlq, lf, lt⟩ := s
    simp_all
  · simp [h]

/-- C5 witness: a failing persist on a one-record buffer returns 0 and
leaves the record neither in the store nor back in the buffer. -/
theorem persist_batch_failure_no_restore_witness :
    persist_batch false oneRecordState 7
      = (0, { oneRecordState with buffer := [] }) :=
  persist_batch_failure_no_restore oneRecordState 7

/-- C6 counterexample: with one buffered record and a failing store
transaction, `persist_batch` returns 0 (nothing persisted) yet the
`/flush` endpoint reports `flushed = 1`, not the claimed zero count. -/
theorem flush_endpoint_nonzero_on_failure :
    (persist_batch false oneRecordState 0).1 = 0
    ∧ (flush_buffer false 0 oneRecordState).1.flushed = 1 := by
  constructor <;> rfl

/-- C6 amended: `persist_batch` returns the persisted count — the full
buffer size on success, 0 when the buffer is empty or persistence
fails — and `/flush` never raises; but on a non-empty buffer the
endpoint reports the pre-flush buffer size whether or not persistence
succeeded (it ignores the count `persist_batch` returned). -/
theorem flush_reports_pre_flush_size (dbOk : Bool) (now : Int)
    (s : ConsumerState) :
    (s.buffer = [] →
       flush_buffer dbOk now s = ({ message := "No data to flush", flushed := 0 }, s)
       ∧ persist_batch dbOk s now = (0, s))
    ∧ (s.buffer ≠ [] →
       (persist_batch dbOk s now).1 = (if dbOk then s.buffer.length else 0)
       ∧ (flush_buffer dbOk now s).1.flushed = s.buffer.length
       ∧ (flush_buffer dbOk now s).2 = (persist_batch dbOk s now).2) := by
  constructor
  · intro h
    refine ⟨?_, persist_batch_empty dbOk s now h⟩
    simp [flush_buffer, h]
  · intro h
    have hlen : s.buffer.length ≠ 0 := by simpa using h
    have hne : s.buffer.isEmpty = false := by simpa using h
    refine ⟨?_, ?_, ?_⟩
    · unfold persist_batch
      simp [hne]
      split <;> simp
    · simp [flush_buffer, hlen]
    · simp [flush_buffer, hlen]

/-- C6 witness: on the one-record state with a failing transaction, the
endpoint reports the pre-flush size 1 while `persist_batch` returns 0. -/
theorem flush_reports_pre_flush_size_witness :
    (persist_batch false oneRecordState 0).1 = (if false then 1 else 0)
    ∧ (flush_buffer false 0 oneRecordState).1.flushed = 1
    ∧ (flush_buffer false 0 oneRecordState).2
        = (persist_batch false oneRecordState 0).2 := by
  have h := (flush_reports_pre_flush_size false 0 oneRecordState).2 (by decide)
  simpa using h

/-- C3 counterexample: the first message of the consume loop failing
JSON parsing is not routed to the dead-letter sink at all: the
`trace_id` variable is still unbound, so the DLQ send itself raises and
is swallowed, leaving the whole state — including the DLQ stream —
unchanged. -/
theorem first_parse_failure_not_routed :
    consumeStep 100 true 0 (.malformed "junk") initState = initState
    ∧ (consumeStep 100 true 0 (.malformed "junk") initState).dlq = [] := by
  constructor <;> rfl

/-- C3 amended: a message failing validation leaves the buffer, the
stats counters and the store unchanged and appends exactly its raw
payload to the dead-letter sink; a message failing parsing does the
same when some earlier message had been parsed (binding `trace_id`),
but when no message was ever parsed it is not routed anywhere because
the DLQ send fails on the unbound trace id and the failure is
swallowed. -/
theorem malformed_input_state_change (bs : Nat) (dbOk : Bool) (now : Int)
    (s : ConsumerState) (v : RawMessage) (raw : String) :
    (validateWeatherData v = none →
       consumeStep bs dbOk now (.json v raw) s
         = { s with dlq := s.dlq ++ [DlqPayload.bytes raw],
                    lastTrace := some (v.trace_id.getD "unknown") })
    ∧ (s.lastTrace = none → consumeStep bs dbOk now (.malformed raw) s = s)
    ∧ (∀ t, s.lastTrace = some t →
         consumeStep bs dbOk now (.malformed raw) s
           = { s with dlq := s.dlq ++ [DlqPayload.bytes raw] }) := by
  refine ⟨?_, ?_, ?_⟩
  · intro hv
    simp [consumeStep, hv, send_to_dlq]
  · intro h
    simp [consumeStep, h]
  · intro t h
    simp [consumeStep, h, send_to_dlq]

/-- C3 witness: a concrete out-of-range reading only reaches the DLQ; a
concrete parse failure after a parsed message likewise; the state is
otherwise untouched. -/
theorem malformed_input_state_change_witness :
    consumeStep 100 true 0 (.json badRaw "RAW") initState
      = { initState with dlq := [DlqPayload.bytes "RAW"], lastTrace := some "t1" }
    ∧ consumeStep 100 true 0 (.malformed "junk") oneRecordState
        = { oneRecordState with dlq := [DlqPayload.bytes "junk"] } := by
  constructor
  · have h := (malformed_input_state_change 100 true 0 initState badRaw "RAW").1
      (by decide)
    simpa [initState] using h
  · have h := (malformed_input_state_change 100 true 0 oneRecordState badRaw
      "junk").2.2 "t1" rfl
    simpa [oneRecordState] using h

/-- C7 counterexample: for an out-of-range reading the message produced
on the DLQ topic is the forwarded raw payload bytes — not a serialised
object, hence not of the claimed `{error, original_message, trace_id}`
shape, which is always a serialised object. -/
theorem dlq_message_not_spec_shaped :
    (consumeStep 100 true 0 (.json badRaw "RAW") initState).dlq
      = [DlqPayload.bytes "RAW"]
    ∧ isDict (DlqPayload.bytes "RAW") = false
    ∧ isDict (dlqSpecMessage "Temperature out of realistic range" "RAW" "t1")
        = true := by
  refine ⟨by decide, rfl, rfl⟩

/-- C7 amended: the DLQ message for a message failing validation is
exactly the original raw payload, forwarded unchanged; the validation
error text is only logged, and no structured wrapper carrying it is
ever built. -/
theorem dlq_receives_raw_payload (bs : Nat) (dbOk : Bool) (now : Int)
    (s : ConsumerState) (v : RawMessage) (raw : String)
    (hv : validateWeatherData v = none) :
    (consumeStep bs dbOk now (.json v raw) s).dlq
      = s.dlq ++ [DlqPayload.bytes raw] := by
  simp [consumeStep, hv, send_to_dlq]

/-- C7 witness: the out-of-range reading's raw payload is what arrives
at the DLQ sink. -/
theorem dlq_receives_raw_payload_witness :
    (consumeStep 100 true 0 (.json badRaw "RAW") initState).dlq
      = initState.dlq ++ [DlqPayload.bytes "RAW"] :=
  dlq_receives_raw_payload 100 true 0 initState badRaw "RAW" (by decide)

/-- C4: building the pydantic model succeeds iff every required field is
present and the temperature, humidity and wind-speed constraints hold;
and a message failing validation is never stored in the buffer. -/
theorem validation_iff_ranges (m : RawMessage) (bs : Nat) (dbOk : Bool)
    (now : Int) (raw : String) (s : ConsumerState) :
    ((validateWeatherData m).isSome = true ↔
      (m.station_id.isSome = true ∧ m.timestamp.isSome = true ∧
       (∃ t, m.temperature = some t ∧ -100 ≤ t ∧ t ≤ 60) ∧
       (∃ h, m.humidity = some h ∧ 0 ≤ h ∧ h ≤ 100) ∧
       (∃ w, m.wind_speed = some w ∧ 0 ≤ w)))
    ∧ (validateWeatherData m = none →
        (consumeStep bs dbOk now (.json m raw) s).buffer = s.buffer) := by
  constructor
  · obtain ⟨sid, t, h, w, ts, tr⟩ := m
    cases sid <;> cases t <;> cases h <;> cases w <;> cases ts <;>
      (simp [validateWeatherData, validate_temperature, validate_humidity,
             validate_wind_speed]; try tauto)
  · intro hv
    simp [consumeStep, hv]

/-- C4 witness: the in-range reading validates; the `temperature = 999`
reading fails validation and the buffer stays empty. -/
theorem validation_iff_ranges_witness :
    (validateWeatherData goodRaw).isSome = true
    ∧ (consumeStep 100 true 0 (.json badRaw "RAW") initState).buffer
        = initState.buffer := by
  constructor
  · exact (validation_iff_ranges goodRaw 100 true 0 "RAW" initState).1.mpr
      ⟨rfl, rfl, ⟨20, rfl, by norm_num, by norm_num⟩,
       ⟨65, rfl, by norm_num, by norm_num⟩, ⟨10, rfl, by norm_num⟩⟩
  · exact (validation_iff_ranges badRaw 100 true 0 "RAW" initState).2 (by decide)

/-- C8: the periodic task invokes `persist_batch` exactly when the
elapsed time since the last flush reached the interval and the buffer
is non-empty; and with an empty buffer no flush path (periodic task,
`persist_batch` itself, `/flush` endpoint, shutdown flush) performs any
persist: each leaves the store and state untouched. -/
theorem periodic_flush_guard (interval : Nat) (now : Int) (dbOk : Bool)
    (s : ConsumerState) :
    ((periodicTick interval now dbOk s).1 = true ↔
       ((interval : Int) ≤ now - s.last_flush_time ∧ s.buffer ≠ []))
    ∧ (s.buffer = [] →
         persist_batch dbOk s now = (0, s)
         ∧ (periodicTick interval now dbOk s).2.db = s.db
         ∧ (flush_buffer dbOk now s).2 = s
         ∧ shutdownFlushStep dbOk now s = s) := by
  constructor
  · unfold periodicTick
    split
    · next h1 =>
      split
      · next h2 =>
        exact iff_of_true rfl ⟨h1, List.length_pos.mp h2⟩
      · next h2 =>
        apply iff_of_false (by simp)
        rintro ⟨-, hne⟩
        exact h2 (List.length_pos.mpr hne)
    · next h1 =>
      apply iff_of_false (by simp)
      rintro ⟨hle, -⟩
      exact h1 hle
  · intro h
    refine ⟨persist_batch_empty dbOk s now h, ?_, ?_, ?_⟩
    · unfold periodicTick
      split
      · split
        · next h2 => rw [h] at h2; simp at h2
        · rfl
      · rfl
    · simp [flush_buffer, h]
    · simp [shutdownFlushStep, h]

/-- C8 witness: with one buffered record and elapsed time 10 ≥ 5 the
tick flushes; on the empty initial state `persist_batch` is a no-op. -/
theorem periodic_flush_guard_witness :
    (periodicTick 5 10 true oneRecordState).1 = true
    ∧ persist_batch true initState 3 = (0, initState) := by
  constructor
  · exact (periodic_flush_guard 5 10 true oneRecordState).1.mpr
      ⟨by decide, by decide⟩
  · exact ((periodic_flush_guard 5 3 true initState).2 rfl).1

/-! ## Valid-message step lemmas -/

theorem natKey_trace (d : WeatherData) (x : Option String) :
    natKey { d with trace_id := x } = natKey d := rfl

theorem recordOf_trace (d : WeatherData) (x : Option String) :
    recordOf { d with trace_id := x } = recordOf d := rfl

theorem ingestValid_buffer (d : WeatherData) (s : ConsumerState) :
    (ingestValid d s).buffer = bufUpsert s.buffer (natKey d) (recordOf d) := rfl

theorem ingestValid_processed (d : WeatherData) (s : ConsumerState) :
    (ingestValid d s).stats.messages_processed
      = s.stats.messages_processed + 1 := by
  unfold ingestValid
  by_cases h : bufContains s.buffer (natKey d) = true <;> simp [h]

theorem ingestValid_dups (d : WeatherData) (s : ConsumerState) :
    (ingestValid d s).stats.in_memory_duplicates
      = s.stats.in_memory_duplicates
        + (if bufContains s.buffer (natKey d) then 1 else 0) := by
  unfold ingestValid
  by_cases h : bufContains s.buffer (natKey d) = true <;> simp [h]

theorem ingestValid_batches (d : WeatherData) (s : ConsumerState) :
    (ingestValid d s).stats.batches_persisted = s.stats.batches_persisted := by
  unfold ingestValid
  by_cases h : bufContains s.buffer (natKey d) = true <;> simp [h]

theorem rawMessageOf_trace (d : WeatherData) :
    (rawMessageOf d).trace_id = d.trace_id := rfl

theorem validate_rawMessageOf (d : WeatherData) (hd : validRanges d) :
    validateWeatherData (rawMessageOf d)
      = some { d with trace_id := some (d.trace_id.getD "unknown") } := by
  obtain ⟨⟨h1, h2⟩, ⟨h3, h4⟩, h5⟩ := hd
  simp [validateWeatherData, rawMessageOf, validate_temperature,
        validate_humidity, validate_wind_speed, h1, h2, h3, h4, h5]

theorem consumeStep_msgOfData (bs : Nat) (dbOk : Bool) (now : Int)
    (d : WeatherData) (s : ConsumerState) (hd : validRanges d) :
    consumeStep bs dbOk now (msgOfData d) s
      = postIngest bs dbOk now
          { d with trace_id := some (d.trace_id.getD "unknown") }
          { s with lastTrace := some (d.trace_id.getD "unknown") } := by
  have hv := validate_rawMessageOf d hd
  simp [consumeStep, msgOfData, hv, rawMessageOf_trace]

theorem postIngest_no_flush (bs : Nat) (dbOk : Bool) (now : Int)
    (d : WeatherData) (s0 : ConsumerState)
    (h : (ingestValid d s0).buffer.length < bs) :
    postIngest bs dbOk now d s0 = ingestValid d s0 := by
  unfold postIngest
  rw [if_neg (by omega)]

theorem consumeStep_valid_no_flush (bs : Nat) (dbOk : Bool) (now : Int)
    (d : WeatherData) (s : ConsumerState) (hd : validRanges d)
    (hlen : (if bufContains s.buffer (natKey d) then s.buffer.length
             else s.buffer.length + 1) < bs) :
    consumeStep bs dbOk now (msgOfData d) s
      = ingestValid { d with trace_id := some (d.trace_id.getD "unknown") }
          { s with lastTrace := some (d.trace_id.getD "unknown") } := by
  rw [consumeStep_msgOfData bs dbOk now d s hd]
  apply postIngest_no_flush
  rw [ingestValid_buffer, length_bufUpsert]
  simpa using hlen

/-- Processing a run of validated readings that all carry a natural key
already present in the buffer: the buffer size and the key's entry
count are preserved, the key ends holding the last reading's record,
and both `in_memory_duplicates` and `messages_processed` grow by the
length of the run. -/
theorem run_same_key_present (bs : Nat) (dbOk : Bool) (now : Int)
    (sid ts : String) (ds : List WeatherData) :
    ∀ s : ConsumerState,
      (∀ d ∈ ds, validRanges d ∧ d.station_id = sid ∧ d.timestamp = ts) →
      bufContains s.buffer (sid ++ ":" ++ ts) = true →
      countKey s.buffer (sid ++ ":" ++ ts) = 1 →
      s.buffer.length < bs →
      ((processAll bs dbOk now (ds.map msgOfData) s).buffer.length
          = s.buffer.length
       ∧ countKey (processAll bs dbOk now (ds.map msgOfData) s).buffer
            (sid ++ ":" ++ ts) = 1
       ∧ bufGet (processAll bs dbOk now (ds.map msgOfData) s).buffer
            (sid ++ ":" ++ ts)
          = (match ds.getLast? with
             | some d => some (recordOf d)
             | none => bufGet s.buffer (sid ++ ":" ++ ts))
       ∧ (processAll bs dbOk now
            (ds.map msgOfData) s).stats.in_memory_duplicates
          = s.stats.in_memory_duplicates + ds.length
       ∧ (processAll bs dbOk now
            (ds.map msgOfData) s).stats.messages_processed
          = s.stats.messages_processed + ds.length) := by
  induction ds with
  | nil =>
    intro s _ hc hk hlen
    simp [processAll, hk]
  | cons d rest ih =>
    intro s hall hc hk hlen
    obtain ⟨hd, hsid, hts⟩ := hall d (by simp)
    have hkey : natKey d = sid ++ ":" ++ ts := by
      simp [natKey, hsid, hts]
    have hstep := consumeStep_valid_no_flush bs dbOk now d s hd
      (by rw [hkey, hc]; simpa using hlen)
    set e : WeatherData := { d with trace_id := some (d.trace_id.getD "unknown") }
    set s0 : ConsumerState := { s with lastTrace := some (d.trace_id.getD "unknown") }
    have hkey' : natKey e = sid ++ ":" ++ ts := by rw [natKey_trace]; exact hkey
    have hrec : recordOf e = recordOf d := recordOf_trace d _
    have hbuf1 : (ingestValid e s0).buffer
        = bufUpsert s.buffer (sid ++ ":" ++ ts) (recordOf d) := by
      rw [ingestValid_buffer, hkey', hrec]
    have hlen1 : (ingestValid e s0).buffer.length = s.buffer.length := by
      rw [hbuf1, length_bufUpsert, if_pos hc]
    have hc1 : bufContains (ingestValid e s0).buffer (sid ++ ":" ++ ts) = true := by
      rw [hbuf1]; exact bufContains_upsert_self _ _ _
    have hk1 : countKey (ingestValid e s0).buffer (sid ++ ":" ++ ts) = 1 := by
      rw [hbuf1, countKey_bufUpsert_self, if_pos hc, hk]
    have hget1 : bufGet (ingestValid e s0).buffer (sid ++ ":" ++ ts)
        = some (recordOf d) := by
      rw [hbuf1]; exact bufGet_upsert_self _ _ _
    have hdup1 : (ingestValid e s0).stats.in_memory_duplicates
        = s.stats.in_memory_duplicates + 1 := by
      rw [ingestValid_dups, hkey']
      simp [s0, hc]
    have hproc1 : (ingestValid e s0).stats.messages_processed
        = s.stats.messages_processed + 1 := by
      rw [ingestValid_processed]
    have hrun : processAll bs dbOk now ((d :: rest).map msgOfData) s
        = processAll bs dbOk now (rest.map msgOfData) (ingestValid e s0) := by
      simp [processAll, hstep]
    have hrest := ih (ingestValid e s0)
      (fun d' hd' => hall d' (by simp [hd']))
      hc1 hk1 (by rw [hlen1]; exact hlen)
    rw [hrun]
    refine ⟨?_, hrest.2.1, ?_, ?_, ?_⟩
    · rw [hrest.1, hlen1]
    · rw [hrest.2.2.1]
      cases rest with
      | nil => simpa using hget1
      | cons r rest' =>
        rw [List.getLast?_eq_getLast_of_ne_nil (l := r :: rest') (by simp),
            List.getLast?_eq_getLast_of_ne_nil (l := d :: r :: rest') (by simp)]
        simp
    · rw [hrest.2.2.2.1, hdup1]
      simp only [List.length_cons]
      omega
    · rw [hrest.2.2.2.2, hproc1]
      simp only [List.length_cons]
      omega

/-- C2: a run of `n ≥ 1` validated readings sharing one fresh natural
key, processed without an intervening flush, leaves exactly one buffer
entry for that key holding the last reading's record, and increments
`in_memory_duplicates` by exactly `n - 1` (never on the first
insertion) and `messages_processed` by `n`. -/
theorem same_key_run (bs : Nat) (dbOk : Bool) (now : Int) (s : ConsumerState)
    (ds : List WeatherData) (sid ts : String)
    (hne : ds ≠ [])
    (hall : ∀ d ∈ ds, validRanges d ∧ d.station_id = sid ∧ d.timestamp = ts)
    (hfresh : bufContains s.buffer (sid ++ ":" ++ ts) = false)
    (hsize : s.buffer.length + 1 < bs) :
    countKey (processAll bs dbOk now (ds.map msgOfData) s).buffer
        (sid ++ ":" ++ ts) = 1
    ∧ bufGet (processAll bs dbOk now (ds.map msgOfData) s).buffer
        (sid ++ ":" ++ ts) = (ds.getLast?).map recordOf
    ∧ (processAll bs dbOk now (ds.map msgOfData) s).stats.in_memory_duplicates
        = s.stats.in_memory_duplicates + (ds.length - 1)
    ∧ (processAll bs dbOk now (ds.map msgOfData) s).stats.messages_processed
        = s.stats.messages_processed + ds.length := by
  cases ds with
  | nil => exact absurd rfl hne
  | cons d rest =>
    obtain ⟨hd, hsid, hts⟩ := hall d (by simp)
    have hkey : natKey d = sid ++ ":" ++ ts := by
      simp [natKey, hsid, hts]
    have hstep := consumeStep_valid_no_flush bs dbOk now d s hd
      (by rw [hkey, hfresh]; simpa using hsize)
    set e : WeatherData := { d with trace_id := some (d.trace_id.getD "unknown") }
    set s0 : ConsumerState := { s with lastTrace := some (d.trace_id.getD "unknown") }
    have hkey' : natKey e = sid ++ ":" ++ ts := by rw [natKey_trace]; exact hkey
    have hrec : recordOf e = recordOf d := recordOf_trace d _
    have hbuf1 : (ingestValid e s0).buffer
        = bufUpsert s.buffer (sid ++ ":" ++ ts) (recordOf d) := by
      rw [ingestValid_buffer, hkey', hrec]
    have hlen1 : (ingestValid e s0).buffer.length = s.buffer.length + 1 := by
      rw [hbuf1, length_bufUpsert, if_neg (by simp [hfresh])]
    have hc1 : bufContains (ingestValid e s0).buffer (sid ++ ":" ++ ts) = true := by
      rw [hbuf1]; exact bufContains_upsert_self _ _ _
    have hk1 : countKey (ingestValid e s0).buffer (sid ++ ":" ++ ts) = 1 := by
      rw [hbuf1, countKey_bufUpsert_self, if_neg (by simp [hfresh]),
          countKey_eq_zero_of_not_contains s.buffer _ hfresh]
    have hget1 : bufGet (ingestValid e s0).buffer (sid ++ ":" ++ ts)
        = some (recordOf d) := by
      rw [hbuf1]; exact bufGet_upsert_self _ _ _
    have hdup1 : (ingestValid e s0).stats.in_memory_duplicates
        = s.stats.in_memory_duplicates := by
      rw [ingestValid_dups, hkey']
      simp [s0, hfresh]
    have hproc1 : (ingestValid e s0).stats.messages_processed
        = s.stats.messages_processed + 1 := by
      rw [ingestValid_processed]
    have hrun : processAll bs dbOk now ((d :: rest).map msgOfData) s
        = processAll bs dbOk now (rest.map msgOfData) (ingestValid e s0) := by
      simp [processAll, hstep]
    have hrest := run_same_key_present bs dbOk now sid ts rest (ingestValid e s0)
      (fun d' hd' => hall d' (by simp [hd']))
      hc1 hk1 (by omega)
    rw [hrun]
    refine ⟨hrest.2.1, ?_, ?_, ?_⟩
    · rw [hrest.2.2.1]
      cases rest with
      | nil => simpa using hget1
      | cons r rest' =>
        rw [List.getLast?_eq_getLast_of_ne_nil (l := r :: rest') (by simp),
            List.getLast?_eq_getLast_of_ne_nil (l := d :: r :: rest') (by simp)]
        simp
    · rw [hrest.2.2.2.1, hdup1]
      simp only [List.length_cons]
      omega
    · rw [hrest.2.2.2.2, hproc1]
      simp only [List.length_cons]
      omega

/-- C2 witness: two readings for station `s1` at time `T0` leave one
buffer entry holding the second reading's values, one duplicate
counted, two messages processed. -/
theorem same_key_run_witness :
    countKey (processAll 10 true 0
        ([goodData, goodData2].map msgOfData) initState).buffer "s1:T0" = 1
    ∧ bufGet (processAll 10 true 0
        ([goodData, goodData2].map msgOfData) initState).buffer "s1:T0"
        = some (recordOf goodData2)
    ∧ (processAll 10 true 0
        ([goodData, goodData2].map msgOfData) initState).stats.in_memory_duplicates
        = 1
    ∧ (processAll 10 true 0
        ([goodData, goodData2].map msgOfData) initState).stats.messages_processed
        = 2 := by
  have h := same_key_run 10 true 0 initState [goodData, goodData2] "s1" "T0"
    (by simp)
    (by
      intro d hd
      simp only [List.mem_cons, List.not_mem_nil, or_false] at hd
      rcases hd with rfl | rfl
      · exact ⟨by decide, rfl, rfl⟩
      · exact ⟨by decide, rfl, rfl⟩)
    (by decide) (by decide)
  simpa [initState] using h

/-! ## Trace-id independence -/

theorem validate_trace_shift (m : RawMessage) (x : Option String) :
    validateWeatherData { m with trace_id := x }
      = (validateWeatherData m).map
          (fun d => { d with trace_id := some (x.getD "unknown") }) := by
  obtain ⟨sid, t, h, w, ts, tr⟩ := m
  cases sid <;> cases t <;> cases h <;> cases w <;> cases ts <;>
    simp [validateWeatherData]

theorem persist_batch_parts (dbOk : Bool) (now : Int) (s1 s2 : ConsumerState)
    (hb : s1.buffer = s2.buffer) (hdb : s1.db = s2.db) :
    (persist_batch dbOk s1 now).2.buffer = (persist_batch dbOk s2 now).2.buffer
    ∧ (persist_batch dbOk s1 now).2.db = (persist_batch dbOk s2 now).2.db := by
  by_cases he : s2.buffer.isEmpty = true
  · simp [persist_batch, hb, hdb, he]
  · by_cases hk : dbOk = true
    · simp [persist_batch, hb, hdb, he, hk]
    · simp [persist_batch, hb, hdb, he, hk]

theorem postIngest_parts (bs : Nat) (dbOk : Bool) (now : Int)
    (d1 d2 : WeatherData) (s1 s2 : ConsumerState)
    (hk : natKey d1 = natKey d2) (hr : recordOf d1 = recordOf d2)
    (hb : s1.buffer = s2.buffer) (hdb : s1.db = s2.db) :
    (postIngest bs dbOk now d1 s1).buffer = (postIngest bs dbOk now d2 s2).buffer
    ∧ (postIngest bs dbOk now d1 s1).db = (postIngest bs dbOk now d2 s2).db := by
  have hib : (ingestValid d1 s1).buffer = (ingestValid d2 s2).buffer := by
    rw [ingestValid_buffer, ingestValid_buffer, hb, hk, hr]
  have hidb : (ingestValid d1 s1).db = (ingestValid d2 s2).db := hdb
  have hp := persist_batch_parts dbOk now (ingestValid d1 s1) (ingestValid d2 s2)
    hib hidb
  simp only [postIngest]
  rw [hib]
  by_cases hlen : bs ≤ (ingestValid d2 s2).buffer.length
  · rw [if_pos hlen, if_pos hlen]
    by_cases hemp : (ingestValid d2 s2).buffer.isEmpty = true
    · simp only [hemp, if_true]
      exact ⟨hib, hidb⟩
    · simp only [hemp, Bool.false_eq_true, if_false]
      exact ⟨hp.1, hp.2⟩
  · rw [if_neg hlen, if_neg hlen]
    exact ⟨hib, hidb⟩

/-- C9: the record stored in the buffer for a validated message is the
five-field projection of the validated data — the trace id accepted
during validation is stripped before buffering — and neither the
resulting buffer nor the durable store depends on the message's trace
id. -/
theorem buffered_record_strips_trace (bs : Nat) (dbOk : Bool) (now : Int)
    (s : ConsumerState) (m : RawMessage) (raw : String) (d : WeatherData)
    (hv : validateWeatherData m = some d) :
    bufGet (ingestValid d s).buffer (natKey d) = some (recordOf d)
    ∧ recordOf d = { station_id := d.station_id, temperature := d.temperature,
                     humidity := d.humidity, wind_speed := d.wind_speed,
                     timestamp := d.timestamp }
    ∧ (∀ x, recordOf { d with trace_id := x } = recordOf d)
    ∧ (∀ x,
        (consumeStep bs dbOk now (.json { m with trace_id := x } raw) s).buffer
          = (consumeStep bs dbOk now (.json m raw) s).buffer
        ∧ (consumeStep bs dbOk now (.json { m with trace_id := x } raw) s).db
          = (consumeStep bs dbOk now (.json m raw) s).db) := by
  refine ⟨?_, rfl, fun x => rfl, ?_⟩
  · rw [ingestValid_buffer]
    exact bufGet_upsert_self _ _ _
  · intro x
    have hv' : validateWeatherData { m with trace_id := x }
        = some { d with trace_id := some (x.getD "unknown") } := by
      rw [validate_trace_shift, hv]
      rfl
    have hL : consumeStep bs dbOk now (.json { m with trace_id := x } raw) s
        = postIngest bs dbOk now { d with trace_id := some (x.getD "unknown") }
            { s with lastTrace := some (x.getD "unknown") } := by
      simp [consumeStep, hv']
    have hR : consumeStep bs dbOk now (.json m raw) s
        = postIngest bs dbOk now d
            { s with lastTrace := some (m.trace_id.getD "unknown") } := by
      simp [consumeStep, hv]
    rw [hL, hR]
    exact postIngest_parts bs dbOk now _ d _ _ rfl rfl rfl rfl

/-- C9 witness: the in-range reading is buffered as exactly its five
data fields, and replacing its trace id changes neither buffer nor
store. -/
theorem buffered_record_strips_trace_witness :
    bufGet (ingestValid goodData initState).buffer (natKey goodData)
      = some (recordOf goodData)
    ∧ (consumeStep 100 true 0
         (.json { goodRaw with trace_id := some "other" } "RAW") initState).buffer
        = (consumeStep 100 true 0 (.json goodRaw "RAW") initState).buffer := by
  have h := buffered_record_strips_trace 100 true 0 initState goodRaw "RAW"
    goodData (by decide)
  exact ⟨h.1, (h.2.2.2 (some "other")).1⟩

/-! ## Counter monotonicity -/

theorem postIngest_stats (bs : Nat) (dbOk : Bool) (now : Int)
    (d : WeatherData) (s0 : ConsumerState) :
    (postIngest bs dbOk now d s0).stats.messages_processed
        = s0.stats.messages_processed + 1
    ∧ (postIngest bs dbOk now d s0).stats.in_memory_duplicates
        = s0.stats.in_memory_duplicates
          + (if bufContains s0.buffer (natKey d) then 1 else 0)
    ∧ s0.stats.batches_persisted
        ≤ (postIngest bs dbOk now d s0).stats.batches_persisted := by
  have hi1 := ingestValid_processed d s0
  have hi2 := ingestValid_dups d s0
  have hi3 := ingestValid_batches d s0
  have hp := persist_batch_stats dbOk (ingestValid d s0) now
  unfold postIngest
  by_cases h1 : bs ≤ (ingestValid d s0).buffer.length
  · rw [if_pos h1]
    by_cases h2 : (ingestValid d s0).buffer.isEmpty = true
    · simp only [h2, if_true]
      exact ⟨hi1, hi2, le_of_eq hi3.symm⟩
    · simp only [h2, Bool.false_eq_true, if_false]
      refine ⟨?_, ?_, ?_⟩
      · show (persist_batch dbOk (ingestValid d s0) now).2.stats.messages_processed = _
        omega
      · show (persist_batch dbOk (ingestValid d s0) now).2.stats.in_memory_duplicates = _
        omega
      · show s0.stats.batches_persisted
            ≤ (persist_batch dbOk (ingestValid d s0) now).2.stats.batches_persisted
        omega
  · rw [if_neg h1]
    exact ⟨hi1, hi2, le_of_eq hi3.symm⟩

theorem consumeStep_stats_mono (bs : Nat) (dbOk : Bool) (now : Int)
    (msg : InMsg) (s : ConsumerState) :
    s.stats.messages_processed
        ≤ (consumeStep bs dbOk now msg s).stats.messages_processed
    ∧ s.stats.batches_persisted
        ≤ (consumeStep bs dbOk now msg s).stats.batches_persisted
    ∧ s.stats.in_memory_duplicates
        ≤ (consumeStep bs dbOk now msg s).stats.in_memory_duplicates
    ∧ (consumeStep bs dbOk now msg s).stats.in_memory_duplicates
        + s.stats.messages_processed
      ≤ s.stats.in_memory_duplicates
        + (consumeStep bs dbOk now msg s).stats.messages_processed := by
  cases msg with
  | malformed raw =>
    cases h : s.lastTrace <;> simp [consumeStep, h]
  | json v raw =>
    cases hv : validateWeatherData v with
    | none => simp [consumeStep, hv]
    | some d =>
      have hs : consumeStep bs dbOk now (.json v raw) s
          = postIngest bs dbOk now d
              { s with lastTrace := some (v.trace_id.getD "unknown") } := by
        simp [consumeStep, hv]
      rw [hs]
      have hp := postIngest_stats bs dbOk now d
        { s with lastTrace := some (v.trace_id.getD "unknown") }
      have e1 : ({ s with lastTrace := some (v.trace_id.getD "unknown") } :
          ConsumerState).stats = s.stats := rfl
      have e2 : ({ s with lastTrace := some (v.trace_id.getD "unknown") } :
          ConsumerState).buffer = s.buffer := rfl
      rw [e1, e2] at hp
      have hc : (if bufContains s.buffer (natKey d) then 1 else 0) ≤ 1 := by
        split <;> omega
      refine ⟨?_, ?_, ?_, ?_⟩ <;> omega

theorem periodicTick_stats (interval : Nat) (now : Int) (dbOk : Bool)
    (s : ConsumerState) :
    (periodicTick interval now dbOk s).2.stats.messages_processed
        = s.stats.messages_processed
    ∧ (periodicTick interval now dbOk s).2.stats.in_memory_duplicates
        = s.stats.in_memory_duplicates
    ∧ s.stats.batches_persisted
        ≤ (periodicTick interval now dbOk s).2.stats.batches_persisted := by
  have hp := persist_batch_stats dbOk s now
  unfold periodicTick
  by_cases h1 : (interval : Int) ≤ now - s.last_flush_time
  · by_cases h2 : 0 < s.buffer.length
    · simp only [if_pos h1, if_pos h2]
      exact ⟨hp.1, hp.2.1, hp.2.2⟩
    · simp only [if_pos h1, if_neg h2]
      simp
  · simp only [if_neg h1]
    simp

theorem flush_buffer_stats (dbOk : Bool) (now : Int) (s : ConsumerState) :
    (flush_buffer dbOk now s).2.stats.messages_processed
        = s.stats.messages_processed
    ∧ (flush_buffer dbOk now s).2.stats.in_memory_duplicates
        = s.stats.in_memory_duplicates
    ∧ s.stats.batches_persisted
        ≤ (flush_buffer dbOk now s).2.stats.batches_persisted := by
  have hp := persist_batch_stats dbOk s now
  simp only [flush_buffer]
  by_cases h : s.buffer.length = 0
  · simp only [if_pos h]
    simp
  · simp only [if_neg h]
    exact ⟨hp.1, hp.2.1, hp.2.2⟩

theorem shutdownFlushStep_stats (dbOk : Bool) (now : Int) (s : ConsumerState) :
    (shutdownFlushStep dbOk now s).stats.messages_processed
        = s.stats.messages_processed
    ∧ (shutdownFlushStep dbOk now s).stats.in_memory_duplicates
        = s.stats.in_memory_duplicates
    ∧ s.stats.batches_persisted
        ≤ (shutdownFlushStep dbOk now s).stats.batches_persisted := by
  have hp := persist_batch_stats dbOk s now
  unfold shutdownFlushStep
  by_cases h : 0 < s.buffer.length
  · simp only [if_pos h]
    exact ⟨hp.1, hp.2.1, hp.2.2⟩
  · simp only [if_neg h]
    simp

theorem applyOp_stats_mono (s : ConsumerState) (op : Op) :
    s.stats.messages_processed ≤ (applyOp s op).stats.messages_processed
    ∧ s.stats.batches_persisted ≤ (applyOp s op).stats.batches_persisted
    ∧ s.stats.in_memory_duplicates ≤ (applyOp s op).stats.in_memory_duplicates
    ∧ (applyOp s op).stats.in_memory_duplicates + s.stats.messages_processed
        ≤ s.stats.in_memory_duplicates
          + (applyOp s op).stats.messages_processed := by
  cases op with
  | msg bs dbOk now m =>
    exact consumeStep_stats_mono bs dbOk now m s
  | tick interval dbOk now =>
    have hp := periodicTick_stats interval now dbOk s
    have h : applyOp s (.tick interval dbOk now)
        = (periodicTick interval now dbOk s).2 := rfl
    rw [h]
    omega
  | manualFlush dbOk now =>
    have hp := flush_buffer_stats dbOk now s
    have h : applyOp s (.manualFlush dbOk now) = (flush_buffer dbOk now s).2 := rfl
    rw [h]
    omega
  | shutdownFlush dbOk now =>
    have hp := shutdownFlushStep_stats dbOk now s
    have h : applyOp s (.shutdownFlush dbOk now) = shutdownFlushStep dbOk now s := rfl
    rw [h]
    omega

theorem runOps_dups_le_aux (ops : List Op) :
    ∀ s : ConsumerState,
      s.stats.in_memory_duplicates ≤ s.stats.messages_processed →
      (ops.foldl applyOp s).stats.in_memory_duplicates
        ≤ (ops.foldl applyOp s).stats.messages_processed := by
  induction ops with
  | nil => intro s h; simpa using h
  | cons op rest ih =>
    intro s h
    have hm := applyOp_stats_mono s op
    exact ih (applyOp s op) (by omega)

/-- C10: every operation leaves each of the three counters at least as
large as before — nothing ever decrements or resets them — and in every
state reachable from service start, `in_memory_duplicates` never
exceeds `messages_processed`. -/
theorem counters_monotone_and_bounded (s : ConsumerState) (op : Op)
    (ops : List Op) :
    (s.stats.messages_processed ≤ (applyOp s op).stats.messages_processed
     ∧ s.stats.batches_persisted ≤ (applyOp s op).stats.batches_persisted
     ∧ s.stats.in_memory_duplicates
         ≤ (applyOp s op).stats.in_memory_duplicates)
    ∧ (runOps ops).stats.in_memory_duplicates
        ≤ (runOps ops).stats.messages_processed := by
  have hm := applyOp_stats_mono s op
  refine ⟨⟨hm.1, hm.2.1, hm.2.2.1⟩, ?_⟩
  exact runOps_dups_le_aux ops initState (by simp [initState])

end WeatherConsumer
